import Mathlib

/-!
# Keystone token codec and credential projection (pkg/keystone/tokens/token.go)

A shallow embedding of `SAuthToken` and its methods.  Everything that token.go
imports from elsewhere (the payload structs and their msgpack methods, the key
manager, the directory managers of package models) is a field of one of the
structures `PayloadCodec`, `KeyManager` and `Directory`, so every statement about
token.go holds for all implementations of those collaborators.
-/

namespace Tokens

/-! ## Go values -/

/-- Go `[]byte`; a `nil` slice is the empty list.  A Go `string` that only carries
bytes (the wire token) is modelled by the same type, so `string(b)` and
`[]byte(s)` are the identity. -/
abbrev Bytes := List Nat

/-- Go `error` values that can reach a caller of token.go: the package sentinel
`ErrInvalidFernetToken` and errors made by collaborators. -/
inductive GoError where
  | ErrInvalidFernetToken
  | other (msg : String)
  deriving DecidableEq, Repr

/-- Outcome of a Go function returning `(*T, error)` that may also dereference a
nil pointer: `ok v` is `(v, nil)`, `err e` is `(nil, e)`, `nilDeref` is the
run-time panic "invalid memory address or nil pointer dereference". -/
inductive GoResult (α : Type) where
  | ok (v : α)
  | err (e : GoError)
  | nilDeref
  deriving DecidableEq, Repr

/-- Go `time.Time` as Unix seconds plus nanoseconds within the second. -/
structure Time where
  sec : Int
  nsec : Nat
  deriving DecidableEq, Repr

/-- Go `(time.Time).Unix()`. -/
def Time.Unix (t : Time) : Int := t.sec

/-- Go `time.Unix(sec, nsec)` for `0 ≤ nsec < 1e9`. -/
def timeUnix (sec : Int) (nsec : Nat) : Time := { sec := sec, nsec := nsec }

/-- Two's-complement wrap of an `int64` result. -/
def wrapInt64 (x : Int) : Int := (x + 2 ^ 63) % 2 ^ 64 - 2 ^ 63

/-- Go `(time.Time).Add(d)`, `d` in nanoseconds.  As in package time, the duration
is split by truncating division, a nanosecond carry is moved into the seconds,
and `addSec` adds the seconds to the int64 count from January 1 of year 1
(Unix seconds plus 62135596800), saturating at plus or minus (2^63 - 1) when
the sum overflows. -/
def Time.Add (t : Time) (d : Int) : Time :=
  let dsec0 := Int.tdiv d 1000000000
  let nsec0 : Int := (t.nsec : Int) + Int.tmod d 1000000000
  let dsec := if nsec0 ≥ 1000000000 then dsec0 + 1 else if nsec0 < 0 then dsec0 - 1 else dsec0
  let nsec :=
    if nsec0 ≥ 1000000000 then nsec0 - 1000000000
    else if nsec0 < 0 then nsec0 + 1000000000
    else nsec0
  let ext := wrapInt64 (t.sec + 62135596800)
  let sum := wrapInt64 (ext + dsec)
  let ext1 :=
    if decide (sum > ext) = decide (dsec > 0) then sum
    else if dsec > 0 then 2 ^ 63 - 1
    else -(2 ^ 63 - 1)
  { sec := wrapInt64 (ext1 - 62135596800), nsec := nsec.toNat }

/-- Zero value `time.Time{}` (January 1, year 1, 00:00:00 UTC). -/
def Time.zero : Time := { sec := -62135596800, nsec := 0 }

/-- Go `time.Duration(secs) * time.Second` (int64 nanoseconds). -/
def durationSeconds (secs : Int) : Int := wrapInt64 (wrapInt64 secs * 1000000000)

/-- Position of the highest set bit of `n` (0 for `n < 2`), by halving at most
`fuel` times. -/
def floorLog2 : Nat → Nat → Nat
  | 0, _ => 0
  | fuel + 1, n => if n < 2 then 0 else floorLog2 fuel (n / 2) + 1

/-- Magnitude of an integer after conversion to IEEE-754 binary64
(53-bit significand, round to nearest, ties to even). -/
def roundNat53 (n : Nat) : Nat :=
  if n ≤ 2 ^ 53 then n
  else
    let sh := floorLog2 n n - 52
    let q := n / 2 ^ sh
    let r := n % 2 ^ sh
    let half := 2 ^ (sh - 1)
    let q1 := if half < r ∨ (r = half ∧ q % 2 = 1) then q + 1 else q
    q1 * 2 ^ sh

/-- Go conversion `float64(x)` of an `int64`; the result is always an integral
float, represented by its integer value. -/
def float64OfInt64 (x : Int) : Int :=
  if x < 0 then -((roundNat53 x.natAbs : Nat) : Int) else ((roundNat53 x.natAbs : Nat) : Int)

/-! ## Session entity and payload variants -/

/-- The struct `SAuthToken` of token.go. -/
structure SAuthToken where
  UserId : String
  Method : String
  ProjectId : String
  DomainId : String
  ExpiresAt : Time
  AuditIds : List String
  deriving DecidableEq, Repr

/-- Zero value `SAuthToken{}`. -/
def SAuthToken.zero : SAuthToken :=
  { UserId := "", Method := "", ProjectId := "", DomainId := "", ExpiresAt := Time.zero, AuditIds := [] }

/-- Struct `SProjectScopedPayload`, with the fields token.go assigns. -/
structure SProjectScopedPayload where
  Version : Nat
  UserId : Bytes
  ProjectId : Bytes
  Method : Nat
  ExpiresAt : Int
  AuditIds : List Bytes
  deriving DecidableEq, Repr

/-- Struct `SDomainScopedPayload`, with the fields token.go assigns. -/
structure SDomainScopedPayload where
  Version : Nat
  UserId : Bytes
  DomainId : Bytes
  Method : Nat
  ExpiresAt : Int
  AuditIds : List Bytes
  deriving DecidableEq, Repr

/-- Struct `SUnscopedPayload`, with the fields token.go assigns. -/
structure SUnscopedPayload where
  Version : Nat
  UserId : Bytes
  Method : Nat
  ExpiresAt : Int
  AuditIds : List Bytes
  deriving DecidableEq, Repr

/-- Interface value `ITokenPayload`: one of the three payload variants. -/
inductive ITokenPayload where
  | project (p : SProjectScopedPayload)
  | domain (p : SDomainScopedPayload)
  | unscoped (p : SUnscopedPayload)
  deriving DecidableEq, Repr

/-- The payload code that token.go calls but does not contain: the version
constants, the identifier/method/audit converters used when a payload is built,
and the three methods of `ITokenPayload` for each variant (`Encode`,
`Unmarshal` into a zero payload, `Decode` into an entity).  `authMethods` is the
list of method labels the method dictionary recognises. -/
structure PayloadCodec where
  SProjectScopedPayloadVersion : Nat
  SDomainScopedPayloadVersion : Nat
  SUnscopedPayloadVersion : Nat
  parse : String → Bytes
  authMethods : List String
  authMethodStr2Id : String → Nat
  auditStrings2Bytes : List String → List Bytes
  encodeProject : SProjectScopedPayload → Except GoError Bytes
  encodeDomain : SDomainScopedPayload → Except GoError Bytes
  encodeUnscoped : SUnscopedPayload → Except GoError Bytes
  unmarshalProject : Bytes → Except GoError SProjectScopedPayload
  unmarshalDomain : Bytes → Except GoError SDomainScopedPayload
  unmarshalUnscoped : Bytes → Except GoError SUnscopedPayload
  decodeProject : SProjectScopedPayload → SAuthToken → SAuthToken
  decodeDomain : SDomainScopedPayload → SAuthToken → SAuthToken
  decodeUnscoped : SUnscopedPayload → SAuthToken → SAuthToken

/-- Method `Encode` of the interface `ITokenPayload`. -/
def ITokenPayload.Encode (C : PayloadCodec) : ITokenPayload → Except GoError Bytes
  | .project p => C.encodeProject p
  | .domain p => C.encodeDomain p
  | .unscoped p => C.encodeUnscoped p

/-! ## token.go: codec half -/

/-- `(*SAuthToken).Decode`: the three variants are tried in the order of the
slice literal; the first whose `Unmarshal` returns nil fills the entity. -/
def Decode (C : PayloadCodec) (t : SAuthToken) (tk : Bytes) : Except GoError SAuthToken :=
  match C.unmarshalProject tk with
  | .ok p => .ok (C.decodeProject p t)
  | .error _ =>
    match C.unmarshalDomain tk with
    | .ok p => .ok (C.decodeDomain p t)
    | .error _ =>
      match C.unmarshalUnscoped tk with
      | .ok p => .ok (C.decodeUnscoped p t)
      | .error _ => .error GoError.ErrInvalidFernetToken

/-- `(*SAuthToken).getProjectScopedPayload`. -/
def getProjectScopedPayload (C : PayloadCodec) (t : SAuthToken) : SProjectScopedPayload :=
  { Version := C.SProjectScopedPayloadVersion
    UserId := C.parse t.UserId
    ProjectId := C.parse t.ProjectId
    Method := C.authMethodStr2Id t.Method
    ExpiresAt := float64OfInt64 t.ExpiresAt.Unix
    AuditIds := C.auditStrings2Bytes t.AuditIds }

/-- `(*SAuthToken).getDomainScopedPayload`. -/
def getDomainScopedPayload (C : PayloadCodec) (t : SAuthToken) : SDomainScopedPayload :=
  { Version := C.SDomainScopedPayloadVersion
    UserId := C.parse t.UserId
    DomainId := C.parse t.DomainId
    Method := C.authMethodStr2Id t.Method
    ExpiresAt := float64OfInt64 t.ExpiresAt.Unix
    AuditIds := C.auditStrings2Bytes t.AuditIds }

/-- `(*SAuthToken).getUnscopedPayload`. -/
def getUnscopedPayload (C : PayloadCodec) (t : SAuthToken) : SUnscopedPayload :=
  { Version := C.SUnscopedPayloadVersion
    UserId := C.parse t.UserId
    Method := C.authMethodStr2Id t.Method
    ExpiresAt := float64OfInt64 t.ExpiresAt.Unix
    AuditIds := C.auditStrings2Bytes t.AuditIds }

/-- `(*SAuthToken).getPayload`. -/
def getPayload (C : PayloadCodec) (t : SAuthToken) : ITokenPayload :=
  if t.ProjectId.length > 0 then
    .project (getProjectScopedPayload C t)
  else if t.DomainId.length > 0 then
    .domain (getDomainScopedPayload C t)
  else
    .unscoped (getUnscopedPayload C t)

/-- `(*SAuthToken).Encode`. -/
def Encode (C : PayloadCodec) (t : SAuthToken) : Except GoError Bytes :=
  (getPayload C t).Encode C

/-- The calls token.go makes on `keys.TokenKeysManager` and `options.Options`.
`Decrypt` has a single result at its call site: there is no error value. -/
structure KeyManager where
  Encrypt : Bytes → Except GoError Bytes
  Decrypt : Bytes → Int → Bytes
  TokenExpirationSeconds : Int

/-- `(*SAuthToken).ParseFernetToken`. -/
def ParseFernetToken (C : PayloadCodec) (K : KeyManager) (t : SAuthToken) (tokenStr : Bytes) :
    Except GoError SAuthToken :=
  let tk := K.Decrypt tokenStr (durationSeconds K.TokenExpirationSeconds)
  match Decode C t tk with
  | .error err => .error err
  | .ok t1 => .ok t1

/-- `(*SAuthToken).EncodeFernetToken`. -/
def EncodeFernetToken (C : PayloadCodec) (K : KeyManager) (t : SAuthToken) : Except GoError Bytes :=
  match Encode C t with
  | .error err => .error err
  | .ok tk =>
    match K.Encrypt tk with
    | .error err => .error err
    | .ok ftk => .ok ftk

/-! ## Directory records and credential views -/

/-- Struct `models.SUserExtended`, with the fields token.go reads. -/
structure SUserExtended where
  Id : String
  Name : String
  DomainId : String
  DomainName : String
  deriving DecidableEq, Repr

/-- Struct `models.SProjectExtended`, with the fields token.go reads. -/
structure SProjectExtended where
  Id : String
  Name : String
  DomainId : String
  DomainName : String
  deriving DecidableEq, Repr

/-- Struct `models.SProject`, with the fields token.go reads. -/
structure SProject where
  Id : String
  Name : String
  deriving DecidableEq, Repr

/-- Struct `models.SDomain`, with the fields token.go reads. -/
structure SDomain where
  Id : String
  Name : String
  deriving DecidableEq, Repr

/-- Struct `models.SRole`, with the fields token.go reads. -/
structure SRole where
  Id : String
  Name : String
  deriving DecidableEq, Repr

/-- Modelled from the spec: one row of the endpoint table returned by
`models.EndpointManager.FetchAll` (the type is declared outside token.go); the
spec only says a catalog is a list of service endpoints. -/
structure SEndpoint where
  Service : String
  Url : String
  deriving DecidableEq, Repr

/-- Modelled from the spec: entry of the service catalog embedded in a view (the
catalog types of package mcclient are declared outside token.go). -/
structure SCatalogEntry where
  Name : String
  Url : String
  deriving DecidableEq, Repr

/-- Catalog type of the V3 view; the zero value (nil) is the empty list. -/
abbrev KeystoneServiceCatalogV3 := List SCatalogEntry

/-- Catalog type of the V2 view; the zero value (nil) is the empty list. -/
abbrev KeystoneServiceCatalogV2 := List SCatalogEntry

/-- The lookups token.go performs on the managers of package models.
`FetchUserProjectRoles` keeps both results of the Go call, because one caller
reads the role slice without looking at the error.  `FetchAll` may return a nil
endpoint list together with a nil error. -/
structure Directory where
  FetchUserExtended : String → String → String → String → Except GoError SUserExtended
  FetchProjectById : String → Except GoError SProject
  FetchDomainById : String → Except GoError SDomain
  FetchUserProjectRoles : String → String → List SRole × Option GoError
  FetchAll : Except GoError (Option (List SEndpoint))
  GetKeystoneCatalogV3 : List SEndpoint → KeystoneServiceCatalogV3
  GetKeystoneCatalogV2 : List SEndpoint → KeystoneServiceCatalogV2

/-- Struct `mcclient.SSimpleToken`, with the fields token.go assigns. -/
structure SSimpleToken where
  Token : Bytes
  UserId : String
  User : String
  Expires : Time
  ProjectId : String
  Project : String
  DomainId : String
  Domain : String
  Roles : String
  deriving DecidableEq, Repr

/-- An id/name pair (`Domain` member of a V3 user or project). -/
structure KeystoneDomainV3 where
  Id : String
  Name : String
  deriving DecidableEq, Repr

/-- Member `Token.User` of the V3 view. -/
structure KeystoneUserV3 where
  Id : String
  Name : String
  Domain : KeystoneDomainV3
  deriving DecidableEq, Repr

/-- Member `Token.Project` of the V3 view. -/
structure KeystoneProjectV3 where
  Id : String
  Name : String
  Domain : KeystoneDomainV3
  deriving DecidableEq, Repr

/-- Struct `mcclient.KeystoneRoleV3`. -/
structure KeystoneRoleV3 where
  Id : String
  Name : String
  deriving DecidableEq, Repr

/-- Member `Token` of the V3 view, with the fields token.go assigns. -/
structure KeystoneTokenV3 where
  AuditIds : List String
  Catalog : KeystoneServiceCatalogV3
  ExpiresAt : Time
  IsDomain : Bool
  IssuedAt : Time
  Methods : List String
  Project : KeystoneProjectV3
  Roles : List KeystoneRoleV3
  User : KeystoneUserV3
  deriving DecidableEq, Repr

/-- Struct `mcclient.TokenCredentialV3`. -/
structure TokenCredentialV3 where
  Token : KeystoneTokenV3
  Id : Bytes
  deriving DecidableEq, Repr

/-- Zero value `mcclient.TokenCredentialV3{}`. -/
def TokenCredentialV3.zero : TokenCredentialV3 :=
  { Token :=
      { AuditIds := [], Catalog := [], ExpiresAt := Time.zero, IsDomain := false,
        IssuedAt := Time.zero, Methods := [],
        Project := { Id := "", Name := "", Domain := { Id := "", Name := "" } },
        Roles := [],
        User := { Id := "", Name := "", Domain := { Id := "", Name := "" } } },
    Id := [] }

/-- Struct `mcclient.KeystoneRoleV2`. -/
structure KeystoneRoleV2 where
  Name : String
  deriving DecidableEq, Repr

/-- Member `User` of the V2 view. -/
structure KeystoneUserV2 where
  Name : String
  Id : String
  Username : String
  Roles : List KeystoneRoleV2
  deriving DecidableEq, Repr

/-- Member `Token.Tenant` of the V2 view. -/
structure KeystoneTenantV2 where
  Id : String
  Name : String
  deriving DecidableEq, Repr

/-- Member `Token` of the V2 view. -/
structure KeystoneTokenV2 where
  Id : Bytes
  Expires : Time
  Tenant : KeystoneTenantV2
  deriving DecidableEq, Repr

/-- Member `Metadata` of the V2 view. -/
structure KeystoneMetadataV2 where
  Roles : List String
  deriving DecidableEq, Repr

/-- Struct `mcclient.TokenCredentialV2`, with the fields token.go assigns. -/
structure TokenCredentialV2 where
  User : KeystoneUserV2
  Token : KeystoneTokenV2
  Metadata : KeystoneMetadataV2
  ServiceCatalog : KeystoneServiceCatalogV2
  deriving DecidableEq, Repr

/-- Zero value `mcclient.TokenCredentialV2{}`. -/
def TokenCredentialV2.zero : TokenCredentialV2 :=
  { User := { Name := "", Id := "", Username := "", Roles := [] },
    Token := { Id := [], Expires := Time.zero, Tenant := { Id := "", Name := "" } },
    Metadata := { Roles := [] },
    ServiceCatalog := [] }

/-! ## token.go: projection half -/

/-- The tail of `GetSimpleUserCred` after the scope branches: join the role names
and return the credential with a nil error. -/
def simpleCredFinish (ret : SSimpleToken) (roles : List SRole) : Except GoError SSimpleToken :=
  let roleStrs := roles.map (fun r => r.Name)
  .ok { ret with Roles := String.intercalate "," roleStrs }

/-- `(*SAuthToken).GetSimpleUserCred`.  In both scope branches the error result of
`FetchUserProjectRoles` is assigned and never read again. -/
def GetSimpleUserCred (D : Directory) (t : SAuthToken) (token : Bytes) : Except GoError SSimpleToken :=
  match D.FetchUserExtended t.UserId "" "" "" with
  | .error err => .error err
  | .ok userExt =>
    let ret : SSimpleToken :=
      { Token := token, UserId := t.UserId, User := userExt.Name, Expires := t.ExpiresAt,
        ProjectId := "", Project := "", DomainId := "", Domain := "", Roles := "" }
    if t.ProjectId.length > 0 then
      match D.FetchProjectById t.ProjectId with
      | .error err => .error err
      | .ok proj =>
        let ret1 := { ret with ProjectId := t.ProjectId, Project := proj.Name }
        let (roles, _) := D.FetchUserProjectRoles t.UserId t.ProjectId
        simpleCredFinish ret1 roles
    else if t.DomainId.length > 0 then
      match D.FetchDomainById t.DomainId with
      | .error err => .error err
      | .ok domain =>
        let ret1 := { ret with DomainId := t.DomainId, Domain := domain.Name }
        let (roles, _) := D.FetchUserProjectRoles t.UserId t.DomainId
        simpleCredFinish ret1 roles
    else
      simpleCredFinish ret []

/-- `(*SAuthToken).getRoles`; the unscoped case is `return nil, nil`. -/
def getRoles (D : Directory) (t : SAuthToken) : List SRole × Option GoError :=
  let roleProjectId : String :=
    if t.ProjectId.length > 0 then t.ProjectId
    else if t.DomainId.length > 0 then t.DomainId
    else ""
  if roleProjectId.length > 0 then
    D.FetchUserProjectRoles t.UserId roleProjectId
  else
    ([], none)

/-- The branch `if project != nil ... else if domain != nil ...` of getTokenV3. -/
def setProjectV3 (token : TokenCredentialV3) (project : Option SProjectExtended)
    (domain : Option SDomain) : TokenCredentialV3 :=
  match project with
  | some p =>
    { token with Token := { token.Token with
        IsDomain := false
        Project := { Id := p.Id, Name := p.Name, Domain := { Id := p.DomainId, Name := p.DomainName } } } }
  | none =>
    match domain with
    | some d =>
      { token with Token := { token.Token with
          IsDomain := true
          Project := { token.Token.Project with Id := d.Id, Name := d.Name } } }
    | none => token

/-- `(*SAuthToken).getTokenV3`; `none` stands for a nil pointer argument. -/
def getTokenV3 (C : PayloadCodec) (K : KeyManager) (D : Directory) (t : SAuthToken)
    (user : Option SUserExtended) (project : Option SProjectExtended) (domain : Option SDomain) :
    GoResult TokenCredentialV3 :=
  match user with
  | none => .nilDeref
  | some u =>
    let token0 : TokenCredentialV3 :=
      { TokenCredentialV3.zero with Token := { TokenCredentialV3.zero.Token with
          ExpiresAt := t.ExpiresAt
          IssuedAt := t.ExpiresAt.Add (wrapInt64 (wrapInt64 (-(wrapInt64 K.TokenExpirationSeconds)) * 1000000000))
          AuditIds := t.AuditIds
          Methods := [t.Method]
          User := { Id := u.Id, Name := u.Name, Domain := { Id := u.DomainId, Name := u.DomainName } } } }
    match EncodeFernetToken C K t with
    | .error err => .err err
    | .ok tk =>
      let token1 := { token0 with Id := tk }
      match getRoles D t with
      | (_, some err) => .err err
      | (roles, none) =>
        if roles.length > 0 then
          let token2 := setProjectV3 token1 project domain
          let token3 := { token2 with Token := { token2.Token with
            Roles := roles.map (fun r => { Id := r.Id, Name := r.Name }) } }
          match D.FetchAll with
          | .error err => .err err
          | .ok endpoints =>
            match endpoints with
            | some eps => .ok { token3 with Token := { token3.Token with Catalog := D.GetKeystoneCatalogV3 eps } }
            | none => .ok token3
        else
          .ok token1

/-- `(*SAuthToken).getTokenV2`; `none` stands for a nil pointer argument.  Inside
the role branch `project.Id` is read without a nil test. -/
def getTokenV2 (C : PayloadCodec) (K : KeyManager) (D : Directory) (t : SAuthToken)
    (user : Option SUserExtended) (project : Option SProject) : GoResult TokenCredentialV2 :=
  match user with
  | none => .nilDeref
  | some u =>
    let token0 : TokenCredentialV2 :=
      { TokenCredentialV2.zero with
        User := { TokenCredentialV2.zero.User with Name := u.Name, Id := u.Id, Username := u.Name } }
    match EncodeFernetToken C K t with
    | .error err => .err err
    | .ok tk =>
      let token1 := { token0 with Token := { token0.Token with Id := tk, Expires := t.ExpiresAt } }
      match getRoles D t with
      | (_, some err) => .err err
      | (roles, none) =>
        if roles.length > 0 then
          match project with
          | none => .nilDeref
          | some p =>
            let token2 := { token1 with
              Token := { token1.Token with Tenant := { token1.Token.Tenant with Id := p.Id, Name := p.Name } }
              User := { token1.User with Roles := roles.map (fun r => { Name := r.Name }) }
              Metadata := { token1.Metadata with Roles := roles.map (fun r => r.Name) } }
            match D.FetchAll with
            | .error err => .err err
            | .ok endpoints =>
              match endpoints with
              | some eps => .ok { token2 with ServiceCatalog := D.GetKeystoneCatalogV2 eps }
              | none => .ok token2
        else
          .ok token1

/-! ## The codec contract of the specification -/

/-- Modelled from the spec: the contract of the payload codec, whose bodies
(`Encode`, `Unmarshal` and `Decode` of the three payload structs, the identifier,
method and audit-id converters) are outside token.go.  Section 4.1 and invariant
I3: for one known variant, decoding is the inverse of encoding on every field of
an entity whose method label the dictionary recognises, the expiry coming back
in whole seconds; the laws speak only of expiries within 2^53 seconds of the
epoch, where the float64 field of the payload holds the seconds exactly, and
say nothing about the lossy range beyond.  A variant's decoder validates the
version marker, so it accepts bytes written for another variant only if they
carry its own marker. -/
structure PayloadCodec.Lawful (C : PayloadCodec) : Prop where
  project_inverse : ∀ (t : SAuthToken) (bs : Bytes), t.Method ∈ C.authMethods →
    -(2 ^ 53) ≤ t.ExpiresAt.Unix → t.ExpiresAt.Unix ≤ 2 ^ 53 →
    C.encodeProject (getProjectScopedPayload C t) = .ok bs →
    ∃ p, C.unmarshalProject bs = .ok p ∧
      C.decodeProject p SAuthToken.zero =
        { UserId := t.UserId, Method := t.Method, ProjectId := t.ProjectId, DomainId := "",
          ExpiresAt := timeUnix t.ExpiresAt.Unix 0, AuditIds := t.AuditIds }
  domain_inverse : ∀ (t : SAuthToken) (bs : Bytes), t.Method ∈ C.authMethods →
    -(2 ^ 53) ≤ t.ExpiresAt.Unix → t.ExpiresAt.Unix ≤ 2 ^ 53 →
    C.encodeDomain (getDomainScopedPayload C t) = .ok bs →
    ∃ p, C.unmarshalDomain bs = .ok p ∧
      C.decodeDomain p SAuthToken.zero =
        { UserId := t.UserId, Method := t.Method, ProjectId := "", DomainId := t.DomainId,
          ExpiresAt := timeUnix t.ExpiresAt.Unix 0, AuditIds := t.AuditIds }
  unscoped_inverse : ∀ (t : SAuthToken) (bs : Bytes), t.Method ∈ C.authMethods →
    -(2 ^ 53) ≤ t.ExpiresAt.Unix → t.ExpiresAt.Unix ≤ 2 ^ 53 →
    C.encodeUnscoped (getUnscopedPayload C t) = .ok bs →
    ∃ p, C.unmarshalUnscoped bs = .ok p ∧
      C.decodeUnscoped p SAuthToken.zero =
        { UserId := t.UserId, Method := t.Method, ProjectId := "", DomainId := "",
          ExpiresAt := timeUnix t.ExpiresAt.Unix 0, AuditIds := t.AuditIds }
  project_checks_domain : ∀ (q : SDomainScopedPayload) (bs : Bytes) (p : SProjectScopedPayload),
    C.encodeDomain q = .ok bs → C.unmarshalProject bs = .ok p →
    q.Version = C.SProjectScopedPayloadVersion
  project_checks_unscoped : ∀ (q : SUnscopedPayload) (bs : Bytes) (p : SProjectScopedPayload),
    C.encodeUnscoped q = .ok bs → C.unmarshalProject bs = .ok p →
    q.Version = C.SProjectScopedPayloadVersion
  domain_checks_unscoped : ∀ (q : SUnscopedPayload) (bs : Bytes) (p : SDomainScopedPayload),
    C.encodeUnscoped q = .ok bs → C.unmarshalDomain bs = .ok p →
    q.Version = C.SDomainScopedPayloadVersion

/-- The three version constants are pairwise different. -/
def PayloadCodec.MarkersDistinct (C : PayloadCodec) : Prop :=
  C.SProjectScopedPayloadVersion ≠ C.SDomainScopedPayloadVersion ∧
  C.SProjectScopedPayloadVersion ≠ C.SUnscopedPayloadVersion ∧
  C.SDomainScopedPayloadVersion ≠ C.SUnscopedPayloadVersion

/-! ## A reference codec, key manager and directory

Concrete collaborators on which the definitions above can be evaluated. -/

/-- Length-prefixed byte string. -/
def putBytes (b : Bytes) : Bytes := b.length :: b

/-- Reads a length-prefixed byte string; fails rather than read past the buffer. -/
def getBytes : Bytes → Option (Bytes × Bytes)
  | [] => none
  | n :: rest => if n ≤ rest.length then some (rest.take n, rest.drop n) else none

/-- Concatenation of length-prefixed items. -/
def putItems : List Bytes → Bytes
  | [] => []
  | x :: xs => putBytes x ++ putItems xs

/-- Reads `n` length-prefixed items. -/
def getItems : Nat → Bytes → Option (List Bytes × Bytes)
  | 0, bs => some ([], bs)
  | n + 1, bs =>
    match getBytes bs with
    | none => none
    | some (x, rest) =>
      match getItems n rest with
      | none => none
      | some (xs, rest1) => some (x :: xs, rest1)

/-- Sign and magnitude of the expiry. -/
def putInt (x : Int) : Bytes := [if x < 0 then 1 else 0, x.natAbs]

/-- Reads sign and magnitude. -/
def getInt : Bytes → Option (Int × Bytes)
  | s :: m :: rest =>
    if s = 0 then some ((m : Int), rest)
    else if s = 1 then some (-(m : Int), rest)
    else none
  | _ => none

/-- Identifier to bytes (code points). -/
def refParse (s : String) : Bytes := s.toList.map Char.toNat

/-- Bytes back to the identifier. -/
def refUnparse (b : Bytes) : String := String.mk (b.map Char.ofNat)

/-- Method dictionary, label to code; 0 is the code of no recognised label. -/
def refStr2Id (m : String) : Nat :=
  if m = "password" then 1 else if m = "token" then 2 else 0

/-- Method dictionary, code to label. -/
def refId2Str (c : Nat) : String :=
  if c = 1 then "password" else if c = 2 then "token" else ""

/-- Body shared by the three layouts after the version marker and identifiers:
method code, expiry, packed audit-id list; nothing may follow. -/
def getTail (bs : Bytes) : Option (Nat × Int × List Bytes) :=
  match bs with
  | [] => none
  | m :: r1 =>
    if m = 1 ∨ m = 2 then
      match getInt r1 with
      | none => none
      | some (e, r2) =>
        match r2 with
        | [] => none
        | n :: r3 =>
          match getItems n r3 with
          | some (a, []) => some (m, e, a)
          | _ => none
    else none

/-- Writer of the shared body. -/
def putTail (m : Nat) (e : Int) (a : List Bytes) : Bytes :=
  m :: (putInt e ++ (a.length :: putItems a))

/-- Reader of the project-scoped layout with marker `v`. -/
def readProject (v : Nat) (bs : Bytes) : Option SProjectScopedPayload :=
  match bs with
  | [] => none
  | w :: r0 =>
    if w = v then
      match getBytes r0 with
      | none => none
      | some (uid, r1) =>
        match getBytes r1 with
        | none => none
        | some (pid, r2) =>
          match getTail r2 with
          | none => none
          | some (m, e, a) =>
            some { Version := w, UserId := uid, ProjectId := pid, Method := m, ExpiresAt := e, AuditIds := a }
    else none

/-- Reader of the domain-scoped layout with marker `v`. -/
def readDomain (v : Nat) (bs : Bytes) : Option SDomainScopedPayload :=
  match bs with
  | [] => none
  | w :: r0 =>
    if w = v then
      match getBytes r0 with
      | none => none
      | some (uid, r1) =>
        match getBytes r1 with
        | none => none
        | some (did, r2) =>
          match getTail r2 with
          | none => none
          | some (m, e, a) =>
            some { Version := w, UserId := uid, DomainId := did, Method := m, ExpiresAt := e, AuditIds := a }
    else none

/-- Reader of the unscoped layout with marker `v`. -/
def readUnscoped (v : Nat) (bs : Bytes) : Option SUnscopedPayload :=
  match bs with
  | [] => none
  | w :: r0 =>
    if w = v then
      match getBytes r0 with
      | none => none
      | some (uid, r1) =>
        match getTail r1 with
        | none => none
        | some (m, e, a) =>
          some { Version := w, UserId := uid, Method := m, ExpiresAt := e, AuditIds := a }
    else none

/-- Turns a reader result into the result of `Unmarshal`. -/
def orMalformed {α : Type} : Option α → Except GoError α
  | some p => .ok p
  | none => .error (GoError.other "malformed payload")

/-- Modelled from the spec: a reference payload codec for the bodies that are
outside token.go.  Each layout is the version marker, the identifiers, the method
code, the expiry and the packed audit-id list (section 4.1); a reader checks the
marker first, fails on any length mismatch and on a method code without a label.
Markers: unscoped 0, domain-scoped 1, project-scoped 2. -/
def refCodec : PayloadCodec :=
  { SProjectScopedPayloadVersion := 2
    SDomainScopedPayloadVersion := 1
    SUnscopedPayloadVersion := 0
    parse := refParse
    authMethods := ["password", "token"]
    authMethodStr2Id := refStr2Id
    auditStrings2Bytes := fun a => a.map refParse
    encodeProject := fun p =>
      .ok (p.Version :: (putBytes p.UserId ++ (putBytes p.ProjectId ++ putTail p.Method p.ExpiresAt p.AuditIds)))
    encodeDomain := fun p =>
      .ok (p.Version :: (putBytes p.UserId ++ (putBytes p.DomainId ++ putTail p.Method p.ExpiresAt p.AuditIds)))
    encodeUnscoped := fun p =>
      .ok (p.Version :: (putBytes p.UserId ++ putTail p.Method p.ExpiresAt p.AuditIds))
    unmarshalProject := fun bs => orMalformed (readProject 2 bs)
    unmarshalDomain := fun bs => orMalformed (readDomain 1 bs)
    unmarshalUnscoped := fun bs => orMalformed (readUnscoped 0 bs)
    decodeProject := fun p t =>
      { t with UserId := refUnparse p.UserId, ProjectId := refUnparse p.ProjectId,
               Method := refId2Str p.Method, ExpiresAt := timeUnix p.ExpiresAt 0,
               AuditIds := p.AuditIds.map refUnparse }
    decodeDomain := fun p t =>
      { t with UserId := refUnparse p.UserId, DomainId := refUnparse p.DomainId,
               Method := refId2Str p.Method, ExpiresAt := timeUnix p.ExpiresAt 0,
               AuditIds := p.AuditIds.map refUnparse }
    decodeUnscoped := fun p t =>
      { t with UserId := refUnparse p.UserId,
               Method := refId2Str p.Method, ExpiresAt := timeUnix p.ExpiresAt 0,
               AuditIds := p.AuditIds.map refUnparse } }

/-- Modelled from the spec: a reference Encryption Engine (section 4.3; the key
manager is outside token.go).  The ciphertext embeds the issuance time in
seconds; `Decrypt`, asked at time `validateAt`, returns the plaintext while the
token is no older than `maxAge` nanoseconds and nil once it is older. -/
def refKeys (lifetime : Int) (issueAt validateAt : Nat) : KeyManager :=
  { Encrypt := fun bs => .ok (issueAt :: bs)
    Decrypt := fun tok maxAge =>
      match tok with
      | [] => []
      | ts :: body =>
        if ts ≤ validateAt ∧ ((validateAt - ts : Nat) : Int) * 1000000000 ≤ maxAge then body else []
    TokenExpirationSeconds := lifetime }

/-- A small directory: user u1; projects p1 and p2; domains d1 and d2.  u1 holds
role admin on p1 and on d1 and no role on d2; the role lookup for p2 fails. -/
def demoDirectory : Directory :=
  { FetchUserExtended := fun id _ _ _ =>
      if id = "u1" then .ok { Id := "u1", Name := "alice", DomainId := "default", DomainName := "Default" }
      else .error (GoError.other "user not found")
    FetchProjectById := fun id =>
      if id = "p1" then .ok { Id := "p1", Name := "proj1" }
      else if id = "p2" then .ok { Id := "p2", Name := "proj2" }
      else .error (GoError.other "project not found")
    FetchDomainById := fun id =>
      if id = "d1" then .ok { Id := "d1", Name := "dom1" }
      else if id = "d2" then .ok { Id := "d2", Name := "dom2" }
      else .error (GoError.other "domain not found")
    FetchUserProjectRoles := fun uid scope =>
      if uid = "u1" ∧ (scope = "p1" ∨ scope = "d1") then ([{ Id := "r1", Name := "admin" }], none)
      else if scope = "p2" then ([], some (GoError.other "role lookup failed"))
      else ([], none)
    FetchAll := .ok (some [{ Service := "compute", Url := "https://compute.example" }])
    GetKeystoneCatalogV3 := fun eps => eps.map (fun e => { Name := e.Service, Url := e.Url })
    GetKeystoneCatalogV2 := fun eps => eps.map (fun e => { Name := e.Service, Url := e.Url }) }

/-- The user record of u1. -/
def demoUser : SUserExtended :=
  { Id := "u1", Name := "alice", DomainId := "default", DomainName := "Default" }

/-- Entity with both scopes set. -/
def tokenBothScopes : SAuthToken :=
  { UserId := "u1", Method := "password", ProjectId := "p1", DomainId := "d1",
    ExpiresAt := { sec := 1700003600, nsec := 0 }, AuditIds := ["a1"] }

/-- Entity scoped to project p1. -/
def tokenProject1 : SAuthToken :=
  { UserId := "u1", Method := "password", ProjectId := "p1", DomainId := "",
    ExpiresAt := { sec := 1700003600, nsec := 500 }, AuditIds := ["a1"] }

/-- Entity scoped to project p2. -/
def tokenProject2 : SAuthToken :=
  { UserId := "u1", Method := "password", ProjectId := "p2", DomainId := "",
    ExpiresAt := { sec := 1700003600, nsec := 0 }, AuditIds := ["a1"] }

/-- Entity scoped to domain d1. -/
def tokenDomain1 : SAuthToken :=
  { UserId := "u1", Method := "password", ProjectId := "", DomainId := "d1",
    ExpiresAt := { sec := 1700003600, nsec := 0 }, AuditIds := ["a1"] }

/-- Entity scoped to domain d2. -/
def tokenDomain2 : SAuthToken :=
  { UserId := "u1", Method := "password", ProjectId := "", DomainId := "d2",
    ExpiresAt := { sec := 1700003600, nsec := 0 }, AuditIds := ["a1"] }

/-- Entity without scope. -/
def tokenUnscoped : SAuthToken :=
  { UserId := "u1", Method := "password", ProjectId := "", DomainId := "",
    ExpiresAt := { sec := 1700003600, nsec := 0 }, AuditIds := ["a1"] }

/-- The record of domain d1. -/
def demoDomain1 : SDomain := { Id := "d1", Name := "dom1" }

/-- The record of domain d2. -/
def demoDomain2 : SDomain := { Id := "d2", Name := "dom2" }

/-- The record of project p1 as `models.SProjectExtended`. -/
def demoProject1 : SProjectExtended :=
  { Id := "p1", Name := "proj1", DomainId := "default", DomainName := "Default" }

/-- The wire token of `tokenUnscoped` issued by `refKeys` at time 1000. -/
def wireUnscoped : Bytes := [1000, 0, 2, 117, 49, 1, 0, 1700003600, 1, 2, 97, 49]

/-- A wire token from time 4600 whose plaintext fits no payload layout. -/
def wireGarbage : Bytes := [4600, 9, 9]

/-- Entity scoped to project p1 whose expiry is 2^53 + 1 seconds after the epoch. -/
def tokenFarFuture : SAuthToken :=
  { UserId := "u1", Method := "password", ProjectId := "p1", DomainId := "",
    ExpiresAt := { sec := 9007199254740993, nsec := 0 }, AuditIds := ["a1"] }

/-- Unscoped entity whose method label is not in the method dictionary. -/
def tokenUnknownMethod : SAuthToken :=
  { UserId := "u1", Method := "sso", ProjectId := "", DomainId := "",
    ExpiresAt := { sec := 1700003600, nsec := 0 }, AuditIds := ["a1"] }

/-- Entity scoped to project p1 whose expiry is 2^53 seconds after the epoch. -/
def tokenAtLimit : SAuthToken :=
  { UserId := "u1", Method := "password", ProjectId := "p1", DomainId := "",
    ExpiresAt := { sec := 9007199254740992, nsec := 0 }, AuditIds := ["a1"] }

/-- A key manager whose `Encrypt` fails. -/
def failingKeys : KeyManager :=
  { Encrypt := fun _ => .error (GoError.other "no active key")
    Decrypt := fun _ _ => []
    TokenExpirationSeconds := 3600 }

/-- The directory `demoDirectory` with a failing endpoint lookup. -/
def demoDirectoryEndpointsDown : Directory :=
  { demoDirectory with FetchAll := .error (GoError.other "endpoint lookup failed") }

/-- The directory `demoDirectory` whose endpoint lookup returns nil, nil. -/
def demoDirectoryNoEndpoints : Directory :=
  { demoDirectory with FetchAll := .ok none }

/-! ## Auxiliary facts -/

theorem String.length_pos_of_ne_empty (s : String) (h : s ≠ "") : 0 < s.length := by
  rcases s with ⟨l⟩
  cases l with
  | nil => exact absurd rfl h
  | cons c cs => simp [String.length]

theorem roundNat53_exact (n : Nat) (h : n ≤ 2 ^ 53) : roundNat53 n = n := by
  unfold roundNat53
  rw [if_pos h]

theorem float64OfInt64_exact (x : Int) (hlo : -(2 ^ 53) ≤ x) (hhi : x ≤ 2 ^ 53) :
    float64OfInt64 x = x := by
  have hn : x.natAbs ≤ 2 ^ 53 := by omega
  unfold float64OfInt64
  rw [roundNat53_exact _ hn]
  split <;> omega

theorem getPayload_of_project (C : PayloadCodec) (t : SAuthToken) (h : t.ProjectId ≠ "") :
    getPayload C t = .project (getProjectScopedPayload C t) := by
  unfold getPayload
  rw [if_pos (String.length_pos_of_ne_empty _ h)]

theorem getPayload_of_domain (C : PayloadCodec) (t : SAuthToken) (hp : t.ProjectId = "")
    (h : t.DomainId ≠ "") : getPayload C t = .domain (getDomainScopedPayload C t) := by
  unfold getPayload
  rw [if_neg (by rw [hp]; decide), if_pos (String.length_pos_of_ne_empty _ h)]

theorem getPayload_of_unscoped (C : PayloadCodec) (t : SAuthToken) (hp : t.ProjectId = "")
    (hd : t.DomainId = "") : getPayload C t = .unscoped (getUnscopedPayload C t) := by
  unfold getPayload
  rw [if_neg (by rw [hp]; decide), if_neg (by rw [hd]; decide)]

theorem getRoles_of_unscoped (D : Directory) (t : SAuthToken) (hp : t.ProjectId = "")
    (hd : t.DomainId = "") : getRoles D t = ([], none) := by
  unfold getRoles
  simp [hp, hd]

theorem Decode_error_eq (C : PayloadCodec) (t : SAuthToken) (tk : Bytes) (e : GoError)
    (h : Decode C t tk = .error e) : e = GoError.ErrInvalidFernetToken := by
  unfold Decode at h
  split at h
  · cases h
  · split at h
    · cases h
    · split at h
      · cases h
      · injection h with h'
        exact h'.symm

theorem getBytes_putBytes (b rest : Bytes) : getBytes (putBytes b ++ rest) = some (b, rest) := by
  simp [getBytes, putBytes]

theorem getItems_putItems (xs : List Bytes) (rest : Bytes) :
    getItems xs.length (putItems xs ++ rest) = some (xs, rest) := by
  induction xs with
  | nil => simp [getItems, putItems]
  | cons x xs ih =>
    simp only [List.length_cons, putItems, getItems, List.append_assoc, getBytes_putBytes, ih]

theorem getInt_putInt (x : Int) (rest : Bytes) : getInt (putInt x ++ rest) = some (x, rest) := by
  by_cases h : x < 0
  · simp [getInt, putInt, h, abs_of_neg h]
  · simp [getInt, putInt, h, abs_of_nonneg (not_lt.mp h)]

theorem getTail_putTail (m : Nat) (e : Int) (a : List Bytes) (hm : m = 1 ∨ m = 2) :
    getTail (putTail m e a) = some (m, e, a) := by
  have h := getItems_putItems a []
  rw [List.append_nil] at h
  simp only [getTail, putTail, if_pos hm, getInt_putInt, h]

theorem refUnparse_refParse (s : String) : refUnparse (refParse s) = s := by
  simp [refUnparse, refParse, List.map_map, Function.comp_def]

theorem refId2Str_refStr2Id (m : String) (h : m ∈ ["password", "token"]) :
    refId2Str (refStr2Id m) = m ∧ (refStr2Id m = 1 ∨ refStr2Id m = 2) := by
  simp only [List.mem_cons, List.mem_singleton, List.not_mem_nil, or_false] at h
  rcases h with h | h <;> subst h <;> exact ⟨by decide, by decide⟩

theorem orMalformed_ok {α : Type} (o : Option α) (p : α) (h : orMalformed o = .ok p) :
    o = some p := by
  cases o with
  | none => cases h
  | some q =>
    injection h with h'
    rw [h']

theorem readProject_marker (v w : Nat) (r : Bytes) (p : SProjectScopedPayload)
    (h : readProject v (w :: r) = some p) : w = v := by
  by_contra hne
  simp [readProject, hne] at h

theorem readDomain_marker (v w : Nat) (r : Bytes) (p : SDomainScopedPayload)
    (h : readDomain v (w :: r) = some p) : w = v := by
  by_contra hne
  simp [readDomain, hne] at h

theorem refCodec_lawful : refCodec.Lawful where
  project_inverse := by
    intro t bs hM hlo hhi hE
    obtain ⟨h1, h2⟩ := refId2Str_refStr2Id t.Method hM
    have hF := float64OfInt64_exact _ hlo hhi
    injection hE with hE
    subst hE
    refine ⟨getProjectScopedPayload refCodec t, ?_, ?_⟩
    · simp only [refCodec, getProjectScopedPayload, readProject, if_true, getBytes_putBytes,
        getTail_putTail _ _ _ h2, orMalformed]
    · simp [refCodec, getProjectScopedPayload, SAuthToken.zero, refUnparse_refParse, h1, hF,
        List.map_map, Function.comp_def]
  domain_inverse := by
    intro t bs hM hlo hhi hE
    obtain ⟨h1, h2⟩ := refId2Str_refStr2Id t.Method hM
    have hF := float64OfInt64_exact _ hlo hhi
    injection hE with hE
    subst hE
    refine ⟨getDomainScopedPayload refCodec t, ?_, ?_⟩
    · simp only [refCodec, getDomainScopedPayload, readDomain, if_true, getBytes_putBytes,
        getTail_putTail _ _ _ h2, orMalformed]
    · simp [refCodec, getDomainScopedPayload, SAuthToken.zero, refUnparse_refParse, h1, hF,
        List.map_map, Function.comp_def]
  unscoped_inverse := by
    intro t bs hM hlo hhi hE
    obtain ⟨h1, h2⟩ := refId2Str_refStr2Id t.Method hM
    have hF := float64OfInt64_exact _ hlo hhi
    injection hE with hE
    subst hE
    refine ⟨getUnscopedPayload refCodec t, ?_, ?_⟩
    · simp only [refCodec, getUnscopedPayload, readUnscoped, if_true, getBytes_putBytes,
        getTail_putTail _ _ _ h2, orMalformed]
    · simp [refCodec, getUnscopedPayload, SAuthToken.zero, refUnparse_refParse, h1, hF,
        List.map_map, Function.comp_def]
  project_checks_domain := by
    intro q bs p hE hU
    injection hE with hE
    subst hE
    exact readProject_marker _ _ _ _ (orMalformed_ok _ _ hU)
  project_checks_unscoped := by
    intro q bs p hE hU
    injection hE with hE
    subst hE
    exact readProject_marker _ _ _ _ (orMalformed_ok _ _ hU)
  domain_checks_unscoped := by
    intro q bs p hE hU
    injection hE with hE
    subst hE
    exact readDomain_marker _ _ _ _ (orMalformed_ok _ _ hU)

theorem refCodec_rejects_unrecognised_method :
    tokenUnknownMethod.Method ∉ refCodec.authMethods ∧
    Encode refCodec tokenUnknownMethod = .ok [0, 2, 117, 49, 0, 0, 1700003600, 1, 2, 97, 49] ∧
    Decode refCodec SAuthToken.zero [0, 2, 117, 49, 0, 0, 1700003600, 1, 2, 97, 49] =
      .error GoError.ErrInvalidFernetToken :=
  ⟨by decide, rfl, rfl⟩

/-! ## Claims -/

/-- C9 (counterexample): for the project-scoped entity expiring 2^53 + 1 seconds
after the epoch, the payload built by getPayload carries the expiry 2^53, which
is not the entity's ExpiresAt in whole Unix seconds. -/
theorem getPayload_expiry_rounded :
    ¬ (tokenFarFuture.ProjectId ≠ "" ∧ tokenFarFuture.DomainId ≠ "") ∧
    tokenFarFuture.ExpiresAt.Unix = 9007199254740993 ∧
    getPayload refCodec tokenFarFuture =
      .project { Version := 2, UserId := [117, 49], ProjectId := [112, 49], Method := 1,
                 ExpiresAt := 9007199254740992, AuditIds := [[97, 49]] } ∧
    (getProjectScopedPayload refCodec tokenFarFuture).ExpiresAt ≠ tokenFarFuture.ExpiresAt.Unix :=
  ⟨by decide, rfl, rfl, by decide⟩

/-- C9 (amended): for an entity satisfying scope exclusivity, getPayload builds the
variant of the entity's scope (project-scoped when ProjectId is non-empty,
domain-scoped when only DomainId is non-empty, unscoped when both are empty),
with that variant's version constant and scope id; each carries the entity's
user id, method code and audit ids, and as expiry the float64 conversion of
ExpiresAt's whole Unix seconds, which is that number of seconds itself whenever
its magnitude is at most 2^53. -/
theorem getPayload_matches_scope (C : PayloadCodec) (t : SAuthToken)
    (hI1 : ¬ (t.ProjectId ≠ "" ∧ t.DomainId ≠ "")) :
    (t.ProjectId ≠ "" → ∃ p, getPayload C t = .project p ∧
        p.Version = C.SProjectScopedPayloadVersion ∧ p.ProjectId = C.parse t.ProjectId ∧
        p.UserId = C.parse t.UserId ∧ p.Method = C.authMethodStr2Id t.Method ∧
        p.AuditIds = C.auditStrings2Bytes t.AuditIds ∧
        p.ExpiresAt = float64OfInt64 t.ExpiresAt.Unix) ∧
    (t.DomainId ≠ "" → ∃ p, getPayload C t = .domain p ∧
        p.Version = C.SDomainScopedPayloadVersion ∧ p.DomainId = C.parse t.DomainId ∧
        p.UserId = C.parse t.UserId ∧ p.Method = C.authMethodStr2Id t.Method ∧
        p.AuditIds = C.auditStrings2Bytes t.AuditIds ∧
        p.ExpiresAt = float64OfInt64 t.ExpiresAt.Unix) ∧
    (t.ProjectId = "" → t.DomainId = "" → ∃ p, getPayload C t = .unscoped p ∧
        p.Version = C.SUnscopedPayloadVersion ∧
        p.UserId = C.parse t.UserId ∧ p.Method = C.authMethodStr2Id t.Method ∧
        p.AuditIds = C.auditStrings2Bytes t.AuditIds ∧
        p.ExpiresAt = float64OfInt64 t.ExpiresAt.Unix) ∧
    (-(2 ^ 53) ≤ t.ExpiresAt.Unix → t.ExpiresAt.Unix ≤ 2 ^ 53 →
        float64OfInt64 t.ExpiresAt.Unix = t.ExpiresAt.Unix) := by
  refine ⟨?_, ?_, ?_, ?_⟩
  · intro hp
    exact ⟨_, getPayload_of_project C t hp, rfl, rfl, rfl, rfl, rfl, rfl⟩
  · intro hd
    have hp : t.ProjectId = "" := by
      by_contra hne
      exact hI1 ⟨hne, hd⟩
    exact ⟨_, getPayload_of_domain C t hp hd, rfl, rfl, rfl, rfl, rfl, rfl⟩
  · intro hp hd
    exact ⟨_, getPayload_of_unscoped C t hp hd, rfl, rfl, rfl, rfl, rfl⟩
  · intro hlo hhi
    exact float64OfInt64_exact _ hlo hhi

/-- Witness of amended C9 on the reference codec and the entity scoped to domain d1. -/
theorem getPayload_matches_scope_witness :
    ¬ (tokenDomain1.ProjectId ≠ "" ∧ tokenDomain1.DomainId ≠ "") ∧
    ∃ p, getPayload refCodec tokenDomain1 = .domain p ∧
      p.Version = 1 ∧ p.DomainId = refParse "d1" ∧
      p.UserId = refParse "u1" ∧ p.Method = refStr2Id "password" ∧
      p.AuditIds = ["a1"].map refParse ∧
      p.ExpiresAt = float64OfInt64 1700003600 :=
  ⟨by decide, (getPayload_matches_scope refCodec tokenDomain1 (by decide)).2.1 (by decide)⟩

/-- C1 (counterexample): the entity with ProjectId "p1" and DomainId "d1" is not
rejected; Encode returns the bytes of its project-scoped payload. -/
theorem Encode_both_scopes_returns_bytes :
    tokenBothScopes.ProjectId ≠ "" ∧ tokenBothScopes.DomainId ≠ "" ∧
    Encode refCodec tokenBothScopes =
      .ok [2, 2, 117, 49, 2, 112, 49, 1, 0, 1700003600, 1, 2, 97, 49] ∧
    ¬ (∃ e, Encode refCodec tokenBothScopes = .error e) := by
  refine ⟨by decide, by decide, rfl, ?_⟩
  rintro ⟨e, he⟩
  have h : Encode refCodec tokenBothScopes =
      .ok [2, 2, 117, 49, 2, 112, 49, 1, 0, 1700003600, 1, 2, 97, 49] := rfl
  rw [h] at he
  cases he

/-- C1 (amended): when ProjectId and DomainId are both non-empty, getPayload builds
the project-scoped payload, and Encode returns exactly what that payload's Encode
returns, which is also the result for the same entity with DomainId cleared; the
domain id is dropped and no scope check is made. -/
theorem Encode_both_scopes_is_project (C : PayloadCodec) (t : SAuthToken)
    (hp : t.ProjectId ≠ "") (_hd : t.DomainId ≠ "") :
    getPayload C t = .project (getProjectScopedPayload C t) ∧
    Encode C t = C.encodeProject (getProjectScopedPayload C t) ∧
    Encode C t = Encode C { t with DomainId := "" } := by
  have h1 := getPayload_of_project C t hp
  have h2 := getPayload_of_project C { t with DomainId := "" } hp
  refine ⟨h1, ?_, ?_⟩
  · unfold Encode
    rw [h1]
    rfl
  · unfold Encode
    rw [h1, h2]
    rfl

/-- Witness of amended C1 on the entity with ProjectId "p1" and DomainId "d1". -/
theorem Encode_both_scopes_is_project_witness :
    tokenBothScopes.ProjectId ≠ "" ∧ tokenBothScopes.DomainId ≠ "" ∧
    Encode refCodec tokenBothScopes = Encode refCodec { tokenBothScopes with DomainId := "" } :=
  ⟨by decide, by decide,
    (Encode_both_scopes_is_project refCodec tokenBothScopes (by decide) (by decide)).2.2⟩

/-- C2: Decode tries ProjectScoped, then DomainScoped, then Unscoped; the first
variant whose Unmarshal succeeds fills the entity and Decode returns nil without
looking at later variants; Decode fails exactly when all three Unmarshal calls
fail, and the only error it ever returns is ErrInvalidFernetToken. -/
theorem Decode_trial_order (C : PayloadCodec) (t : SAuthToken) (tk : Bytes) :
    (∀ p, C.unmarshalProject tk = .ok p → Decode C t tk = .ok (C.decodeProject p t)) ∧
    (∀ e p, C.unmarshalProject tk = .error e → C.unmarshalDomain tk = .ok p →
        Decode C t tk = .ok (C.decodeDomain p t)) ∧
    (∀ e1 e2 p, C.unmarshalProject tk = .error e1 → C.unmarshalDomain tk = .error e2 →
        C.unmarshalUnscoped tk = .ok p → Decode C t tk = .ok (C.decodeUnscoped p t)) ∧
    (Decode C t tk = .error GoError.ErrInvalidFernetToken ↔
        (∃ e, C.unmarshalProject tk = .error e) ∧ (∃ e, C.unmarshalDomain tk = .error e) ∧
        (∃ e, C.unmarshalUnscoped tk = .error e)) ∧
    (∀ e, Decode C t tk = .error e → e = GoError.ErrInvalidFernetToken) := by
  refine ⟨?_, ?_, ?_, ?_, ?_⟩
  · intro p hp
    unfold Decode
    rw [hp]
  · intro e p he hp
    unfold Decode
    rw [he, hp]
  · intro e1 e2 p h1 h2 hp
    unfold Decode
    rw [h1, h2, hp]
  · constructor
    · intro h
      unfold Decode at h
      cases hP : C.unmarshalProject tk with
      | ok p => rw [hP] at h; cases h
      | error e1 =>
        cases hD : C.unmarshalDomain tk with
        | ok p => rw [hP, hD] at h; cases h
        | error e2 =>
          cases hU : C.unmarshalUnscoped tk with
          | ok p => rw [hP, hD, hU] at h; cases h
          | error e3 => exact ⟨⟨e1, rfl⟩, ⟨e2, rfl⟩, ⟨e3, rfl⟩⟩
    · rintro ⟨⟨e1, h1⟩, ⟨e2, h2⟩, ⟨e3, h3⟩⟩
      unfold Decode
      rw [h1, h2, h3]
  · intro e he
    exact Decode_error_eq C t tk e he

/-- C7 (counterexample): a token issued at time 1000 with a 3600 s lifetime and
presented at time 4601 is rejected by the key manager for its age (Decrypt
yields nil), and ParseFernetToken reports ErrInvalidFernetToken, the very error
it reports for a fresh token whose plaintext fits no payload layout. -/
theorem ParseFernetToken_expired_is_invalid :
    EncodeFernetToken refCodec (refKeys 3600 1000 1000) tokenUnscoped = .ok wireUnscoped ∧
    (refKeys 3600 1000 4601).Decrypt wireUnscoped (durationSeconds 3600) = [] ∧
    ParseFernetToken refCodec (refKeys 3600 1000 4601) SAuthToken.zero wireUnscoped =
      .error GoError.ErrInvalidFernetToken ∧
    ParseFernetToken refCodec (refKeys 3600 1000 4601) SAuthToken.zero wireGarbage =
      .error GoError.ErrInvalidFernetToken :=
  ⟨rfl, by decide, rfl, rfl⟩

/-- C7 (amended): ParseFernetToken decodes whatever bytes Decrypt returns for the
wire token and the configured max-age; it fails exactly when those bytes
unmarshal as none of the three variants, and every failure, a token rejected for
its age included, is the single error ErrInvalidFernetToken. -/
theorem ParseFernetToken_single_error (C : PayloadCodec) (K : KeyManager) (t : SAuthToken)
    (tokenStr : Bytes) :
    ParseFernetToken C K t tokenStr =
      Decode C t (K.Decrypt tokenStr (durationSeconds K.TokenExpirationSeconds)) ∧
    (∀ e, ParseFernetToken C K t tokenStr = .error e → e = GoError.ErrInvalidFernetToken) ∧
    ((∃ e, ParseFernetToken C K t tokenStr = .error e) ↔
      (∃ e, C.unmarshalProject (K.Decrypt tokenStr (durationSeconds K.TokenExpirationSeconds)) = .error e) ∧
      (∃ e, C.unmarshalDomain (K.Decrypt tokenStr (durationSeconds K.TokenExpirationSeconds)) = .error e) ∧
      (∃ e, C.unmarshalUnscoped (K.Decrypt tokenStr (durationSeconds K.TokenExpirationSeconds)) = .error e)) := by
  have hEq : ParseFernetToken C K t tokenStr =
      Decode C t (K.Decrypt tokenStr (durationSeconds K.TokenExpirationSeconds)) := by
    unfold ParseFernetToken
    cases h : Decode C t (K.Decrypt tokenStr (durationSeconds K.TokenExpirationSeconds)) <;>
      simp only [h]
  refine ⟨hEq, ?_, ?_⟩
  · intro e he
    rw [hEq] at he
    exact Decode_error_eq C t _ e he
  · rw [hEq]
    constructor
    · rintro ⟨e, he⟩
      have h1 := Decode_error_eq C t _ e he
      subst h1
      unfold Decode at he
      cases hP : C.unmarshalProject (K.Decrypt tokenStr (durationSeconds K.TokenExpirationSeconds)) with
      | ok p => rw [hP] at he; cases he
      | error e1 =>
        cases hD : C.unmarshalDomain (K.Decrypt tokenStr (durationSeconds K.TokenExpirationSeconds)) with
        | ok p => rw [hP, hD] at he; cases he
        | error e2 =>
          cases hU : C.unmarshalUnscoped (K.Decrypt tokenStr (durationSeconds K.TokenExpirationSeconds)) with
          | ok p => rw [hP, hD, hU] at he; cases he
          | error e3 => exact ⟨⟨e1, rfl⟩, ⟨e2, rfl⟩, ⟨e3, rfl⟩⟩
    · rintro ⟨⟨e1, h1⟩, ⟨e2, h2⟩, ⟨e3, h3⟩⟩
      refine ⟨GoError.ErrInvalidFernetToken, ?_⟩
      unfold Decode
      rw [h1, h2, h3]

/-- C10: for an unscoped entity getRoles returns the empty role list without
consulting the directory, and whenever re-encoding the token succeeds getTokenV3
returns a view with the user's id, no roles, no catalog and no project block;
the view is the same for every directory. -/
theorem getTokenV3_unscoped (C : PayloadCodec) (K : KeyManager) (D : Directory) (t : SAuthToken)
    (u : SUserExtended) (project : Option SProjectExtended) (domain : Option SDomain) (tk : Bytes)
    (hp : t.ProjectId = "") (hd : t.DomainId = "") (hEnc : EncodeFernetToken C K t = .ok tk) :
    getRoles D t = ([], none) ∧
    ∃ v, getTokenV3 C K D t (some u) project domain = .ok v ∧
      v.Id = tk ∧ v.Token.User.Id = u.Id ∧ v.Token.Roles = [] ∧ v.Token.Catalog = [] ∧
      v.Token.IsDomain = false ∧
      v.Token.Project = { Id := "", Name := "", Domain := { Id := "", Name := "" } } ∧
      ∀ D1 : Directory, getTokenV3 C K D1 t (some u) project domain = .ok v := by
  have hR : ∀ D1 : Directory, getRoles D1 t = ([], none) := fun D1 => getRoles_of_unscoped D1 t hp hd
  refine ⟨hR D, ?_⟩
  have hV : ∀ D1 : Directory, getTokenV3 C K D1 t (some u) project domain =
      .ok { Token := { TokenCredentialV3.zero.Token with
              ExpiresAt := t.ExpiresAt
              IssuedAt := t.ExpiresAt.Add (wrapInt64 (wrapInt64 (-(wrapInt64 K.TokenExpirationSeconds)) * 1000000000))
              AuditIds := t.AuditIds
              Methods := [t.Method]
              User := { Id := u.Id, Name := u.Name, Domain := { Id := u.DomainId, Name := u.DomainName } } },
            Id := tk } := by
    intro D1
    simp [getTokenV3, hEnc, hR D1, TokenCredentialV3.zero]
  exact ⟨_, hV D, rfl, rfl, rfl, rfl, rfl, rfl, hV⟩

/-- Witness of C10 on the unscoped entity of user u1. -/
theorem getTokenV3_unscoped_witness :
    getRoles demoDirectory tokenUnscoped = ([], none) ∧
    ∃ v, getTokenV3 refCodec (refKeys 3600 1000 1000) demoDirectory tokenUnscoped (some demoUser)
          none none = .ok v ∧
      v.Id = wireUnscoped ∧ v.Token.User.Id = "u1" ∧ v.Token.Roles = [] ∧ v.Token.Catalog = [] ∧
      v.Token.IsDomain = false ∧
      v.Token.Project = { Id := "", Name := "", Domain := { Id := "", Name := "" } } ∧
      ∀ D1 : Directory, getTokenV3 refCodec (refKeys 3600 1000 1000) D1 tokenUnscoped (some demoUser)
          none none = .ok v :=
  getTokenV3_unscoped refCodec (refKeys 3600 1000 1000) demoDirectory tokenUnscoped demoUser
    none none wireUnscoped rfl rfl rfl

/-- C4 (counterexample): four inputs at which the views are not as claimed.
With role admin resolved and a failing endpoint lookup, getTokenV3 and getTokenV2
return the lookup's error and no view.  With role admin resolved and an endpoint
lookup returning nil, the V3 view has roles and an empty catalog.  With an empty
role list and a key manager that cannot encrypt, both return the encryption
error and no view.  For the entity scoped to domain d1 with role admin and no
project record, getTokenV3 returns a view with the domain's block and getTokenV2
returns none. -/
theorem views_not_as_claimed :
    getRoles demoDirectoryEndpointsDown tokenProject1 = ([{ Id := "r1", Name := "admin" }], none) ∧
    getTokenV3 refCodec (refKeys 3600 1000 1000) demoDirectoryEndpointsDown tokenProject1
      (some demoUser) (some demoProject1) none = .err (GoError.other "endpoint lookup failed") ∧
    getTokenV2 refCodec (refKeys 3600 1000 1000) demoDirectoryEndpointsDown tokenProject1
      (some demoUser) (some { Id := "p1", Name := "proj1" }) =
        .err (GoError.other "endpoint lookup failed") ∧
    getRoles demoDirectoryNoEndpoints tokenProject1 = ([{ Id := "r1", Name := "admin" }], none) ∧
    (∃ v, getTokenV3 refCodec (refKeys 3600 1000 1000) demoDirectoryNoEndpoints tokenProject1
        (some demoUser) (some demoProject1) none = .ok v ∧
      v.Token.Roles = [{ Id := "r1", Name := "admin" }] ∧ v.Token.Catalog = []) ∧
    getRoles demoDirectory tokenUnscoped = ([], none) ∧
    getTokenV3 refCodec failingKeys demoDirectory tokenUnscoped (some demoUser) none none =
      .err (GoError.other "no active key") ∧
    getTokenV2 refCodec failingKeys demoDirectory tokenUnscoped (some demoUser) none =
      .err (GoError.other "no active key") ∧
    getRoles demoDirectory tokenDomain1 = ([{ Id := "r1", Name := "admin" }], none) ∧
    (∃ v, getTokenV3 refCodec (refKeys 3600 1000 1000) demoDirectory tokenDomain1
        (some demoUser) none (some demoDomain1) = .ok v ∧
      v.Token.IsDomain = true ∧ v.Token.Project.Id = "d1") ∧
    getTokenV2 refCodec (refKeys 3600 1000 1000) demoDirectory tokenDomain1 (some demoUser) none =
      GoResult.nilDeref :=
  ⟨rfl, rfl, rfl, rfl, ⟨_, rfl, rfl, rfl⟩, rfl, rfl, rfl, rfl, ⟨_, rfl, rfl, rfl⟩, rfl⟩

/-- C4 (amended): let the token re-encode and let getRoles resolve the role list
`roles` without error.  If `roles` is empty, getTokenV3 and getTokenV2 both
return a view without catalog, without project or tenant block and without
roles.  If `roles` is non-empty and the endpoint lookup succeeds, getTokenV3
returns a view whose role ids and names are those of `roles` in order, whose
catalog is the one built from the returned endpoint list (empty when the lookup
returns no list) and whose project block is that of the supplied project, or
else of the supplied domain; and getTokenV2, given a project record, returns a
view with the names of `roles` in order, the catalog built likewise and the
tenant block of that project. -/
theorem views_role_gated (C : PayloadCodec) (K : KeyManager) (D : Directory) (t : SAuthToken)
    (u : SUserExtended) (project : Option SProjectExtended) (domain : Option SDomain)
    (project2 : Option SProject) (tk : Bytes) (roles : List SRole)
    (hEnc : EncodeFernetToken C K t = .ok tk) (hRoles : getRoles D t = (roles, none)) :
    (roles = [] →
      (∃ v3, getTokenV3 C K D t (some u) project domain = .ok v3 ∧
        v3.Token.Catalog = [] ∧ v3.Token.Roles = [] ∧ v3.Token.IsDomain = false ∧
        v3.Token.Project = { Id := "", Name := "", Domain := { Id := "", Name := "" } }) ∧
      (∃ v2, getTokenV2 C K D t (some u) project2 = .ok v2 ∧
        v2.ServiceCatalog = [] ∧ v2.User.Roles = [] ∧ v2.Metadata.Roles = [] ∧
        v2.Token.Tenant = { Id := "", Name := "" })) ∧
    (roles ≠ [] → ∀ eps, D.FetchAll = .ok eps →
      (∃ v3, getTokenV3 C K D t (some u) project domain = .ok v3 ∧
        v3.Token.Roles.map (fun r => r.Name) = roles.map (fun r => r.Name) ∧
        v3.Token.Roles.map (fun r => r.Id) = roles.map (fun r => r.Id) ∧
        v3.Token.Catalog = (eps.map D.GetKeystoneCatalogV3).getD [] ∧
        (∀ p, project = some p → v3.Token.Project =
          { Id := p.Id, Name := p.Name, Domain := { Id := p.DomainId, Name := p.DomainName } }) ∧
        (∀ d, project = none → domain = some d → v3.Token.Project =
          { Id := d.Id, Name := d.Name, Domain := { Id := "", Name := "" } })) ∧
      (∀ p2, project2 = some p2 →
        ∃ v2, getTokenV2 C K D t (some u) project2 = .ok v2 ∧
          v2.User.Roles.map (fun r => r.Name) = roles.map (fun r => r.Name) ∧
          v2.Metadata.Roles = roles.map (fun r => r.Name) ∧
          v2.ServiceCatalog = (eps.map D.GetKeystoneCatalogV2).getD [] ∧
          v2.Token.Tenant = { Id := p2.Id, Name := p2.Name })) := by
  constructor
  · intro hnil
    subst hnil
    constructor
    · simp [getTokenV3, hEnc, hRoles, TokenCredentialV3.zero]
    · simp [getTokenV2, hEnc, hRoles, TokenCredentialV2.zero]
  · intro hne eps hEps
    have hlen : roles.length > 0 := List.length_pos.mpr hne
    constructor
    · rcases project with _ | p <;> rcases domain with _ | d <;> rcases eps with _ | e <;>
        simp only [getTokenV3, hEnc, hRoles, if_pos hlen, hEps, setProjectV3] <;>
        refine ⟨_, rfl, ?_, ?_, rfl, ?_, ?_⟩ <;>
        simp [List.map_map, Function.comp_def, TokenCredentialV3.zero]
    · intro p2 hp2
      subst hp2
      cases eps with
      | none =>
        simp only [getTokenV2, hEnc, hRoles, if_pos hlen, hEps]
        refine ⟨_, rfl, ?_, rfl, rfl, rfl⟩
        simp [List.map_map, Function.comp_def]
      | some e =>
        simp only [getTokenV2, hEnc, hRoles, if_pos hlen, hEps]
        refine ⟨_, rfl, ?_, rfl, rfl, rfl⟩
        simp [List.map_map, Function.comp_def]

/-- Witness of amended C4 on the entity scoped to project p1, on which u1 holds role admin. -/
theorem views_role_gated_witness :
    EncodeFernetToken refCodec (refKeys 3600 1000 1000) tokenProject1 =
      .ok [1000, 2, 2, 117, 49, 2, 112, 49, 1, 0, 1700003600, 1, 2, 97, 49] ∧
    getRoles demoDirectory tokenProject1 = ([{ Id := "r1", Name := "admin" }], none) ∧
    ∃ v2, getTokenV2 refCodec (refKeys 3600 1000 1000) demoDirectory tokenProject1 (some demoUser)
          (some { Id := "p1", Name := "proj1" }) = .ok v2 ∧
      v2.User.Roles.map (fun r => r.Name) = ["admin"] ∧
      v2.Metadata.Roles = ["admin"] ∧
      v2.ServiceCatalog = [{ Name := "compute", Url := "https://compute.example" }] ∧
      v2.Token.Tenant = { Id := "p1", Name := "proj1" } :=
  ⟨rfl, rfl,
    ((views_role_gated refCodec (refKeys 3600 1000 1000) demoDirectory tokenProject1 demoUser
      (some demoProject1) none (some { Id := "p1", Name := "proj1" }) _ _ rfl rfl).2
      (by decide) _ rfl).2 _ rfl⟩

/-- C5 (counterexample): for the entity scoped to domain d2, with that domain
resolved and no role held on it, getTokenV3 returns a view with IsDomain = false
and an empty project block. -/
theorem getTokenV3_domain_without_roles :
    tokenDomain2.DomainId ≠ "" ∧ tokenDomain2.ProjectId = "" ∧
    demoDirectory.FetchDomainById tokenDomain2.DomainId = .ok demoDomain2 ∧
    ∃ v, getTokenV3 refCodec (refKeys 3600 1000 1000) demoDirectory tokenDomain2 (some demoUser)
          none (some demoDomain2) = .ok v ∧
      v.Token.IsDomain = false ∧ v.Token.Project.Id = "" ∧ v.Token.Project.Name = "" ∧
      v.Token.Project.Id ≠ demoDomain2.Id :=
  ⟨by decide, by decide, rfl, _, rfl, rfl, rfl, rfl, by decide⟩

/-- C5 (amended): let the token re-encode, let getRoles resolve a non-empty role
list and let the endpoint lookup succeed.  For a domain-scoped entity with its
domain supplied (and no project), the view of getTokenV3 has IsDomain = true and
Project.Id, Project.Name equal to the domain's id and name; for a project-scoped
entity with its project supplied, the view has IsDomain = false and Project.Id,
Project.Name, Project.Domain.Id, Project.Domain.Name equal to the project's id,
name, owning-domain id and owning-domain name. -/
theorem getTokenV3_scope_block (C : PayloadCodec) (K : KeyManager) (D : Directory)
    (t : SAuthToken) (u : SUserExtended) (tk : Bytes) (roles : List SRole)
    (eps : Option (List SEndpoint))
    (hEnc : EncodeFernetToken C K t = .ok tk) (hRoles : getRoles D t = (roles, none))
    (hne : roles ≠ []) (hEps : D.FetchAll = .ok eps) :
    (t.DomainId ≠ "" → t.ProjectId = "" → ∀ d : SDomain,
      ∃ v, getTokenV3 C K D t (some u) none (some d) = .ok v ∧
        v.Token.IsDomain = true ∧ v.Token.Project.Id = d.Id ∧ v.Token.Project.Name = d.Name) ∧
    (t.ProjectId ≠ "" → ∀ (p : SProjectExtended) (domain : Option SDomain),
      ∃ v, getTokenV3 C K D t (some u) (some p) domain = .ok v ∧
        v.Token.IsDomain = false ∧ v.Token.Project.Id = p.Id ∧ v.Token.Project.Name = p.Name ∧
        v.Token.Project.Domain.Id = p.DomainId ∧ v.Token.Project.Domain.Name = p.DomainName) := by
  have hlen : roles.length > 0 := List.length_pos.mpr hne
  constructor
  · intro _ _ d
    cases eps with
    | none =>
      simp only [getTokenV3, hEnc, hRoles, if_pos hlen, hEps]
      exact ⟨_, rfl, rfl, rfl, rfl⟩
    | some e =>
      simp only [getTokenV3, hEnc, hRoles, if_pos hlen, hEps]
      exact ⟨_, rfl, rfl, rfl, rfl⟩
  · intro _ p domain
    cases eps with
    | none =>
      simp only [getTokenV3, hEnc, hRoles, if_pos hlen, hEps]
      exact ⟨_, rfl, rfl, rfl, rfl, rfl, rfl⟩
    | some e =>
      simp only [getTokenV3, hEnc, hRoles, if_pos hlen, hEps]
      exact ⟨_, rfl, rfl, rfl, rfl, rfl, rfl⟩

/-- Witness of amended C5 on the entity scoped to domain d1, on which u1 holds
role admin. -/
theorem getTokenV3_scope_block_witness :
    getRoles demoDirectory tokenDomain1 = ([{ Id := "r1", Name := "admin" }], none) ∧
    ∃ v, getTokenV3 refCodec (refKeys 3600 1000 1000) demoDirectory tokenDomain1 (some demoUser)
          none (some demoDomain1) = .ok v ∧
      v.Token.IsDomain = true ∧ v.Token.Project.Id = "d1" ∧ v.Token.Project.Name = "dom1" :=
  ⟨rfl,
    (getTokenV3_scope_block refCodec (refKeys 3600 1000 1000) demoDirectory tokenDomain1 demoUser
      _ _ _ rfl rfl (by decide) rfl).1 (by decide) (by decide) demoDomain1⟩

/-- C6 (the code at the failing input): for the entity scoped to domain d1, on
which the directory resolves the role admin, and no project record, getTokenV2
dereferences the nil project pointer instead of returning a view. -/
theorem getTokenV2_domain_scope_nil_deref :
    tokenDomain1.DomainId ≠ "" ∧ tokenDomain1.ProjectId = "" ∧
    getRoles demoDirectory tokenDomain1 = ([{ Id := "r1", Name := "admin" }], none) ∧
    getTokenV2 refCodec (refKeys 3600 1000 1000) demoDirectory tokenDomain1 (some demoUser) none =
      GoResult.nilDeref :=
  ⟨by decide, by decide, rfl, rfl⟩

/-- C8 (the code at the failing input): for the entity scoped to project p2 the
user and project lookups succeed and the role lookup fails, yet GetSimpleUserCred
returns a credential with an empty role string and a nil error. -/
theorem GetSimpleUserCred_ignores_role_error :
    demoDirectory.FetchUserProjectRoles tokenProject2.UserId tokenProject2.ProjectId =
      ([], some (GoError.other "role lookup failed")) ∧
    GetSimpleUserCred demoDirectory tokenProject2 wireGarbage =
      .ok { Token := wireGarbage, UserId := "u1", User := "alice",
            Expires := { sec := 1700003600, nsec := 0 },
            ProjectId := "p2", Project := "proj2", DomainId := "", Domain := "", Roles := "" } :=
  ⟨rfl, rfl⟩

/-- C3 (counterexample): the project-scoped entity expiring 2^53 + 1 seconds
after the epoch satisfies scope exclusivity and does not round-trip.  Its payload
carries the expiry as a float64, so with the reference codec it comes back
expiring at 2^53; and for every codec it encodes exactly as the entity expiring
at 2^53 does, so no Decode can reproduce the expiry of both. -/
theorem Decode_Encode_not_identity :
    ¬ (tokenFarFuture.ProjectId ≠ "" ∧ tokenFarFuture.DomainId ≠ "") ∧
    tokenFarFuture.ExpiresAt.Unix = 9007199254740993 ∧
    Encode refCodec tokenFarFuture =
      .ok [2, 2, 117, 49, 2, 112, 49, 1, 0, 9007199254740992, 1, 2, 97, 49] ∧
    Decode refCodec SAuthToken.zero [2, 2, 117, 49, 2, 112, 49, 1, 0, 9007199254740992, 1, 2, 97, 49] =
      .ok { UserId := "u1", Method := "password", ProjectId := "p1", DomainId := "",
            ExpiresAt := { sec := 9007199254740992, nsec := 0 }, AuditIds := ["a1"] } ∧
    timeUnix tokenFarFuture.ExpiresAt.Unix 0 ≠ { sec := 9007199254740992, nsec := 0 } ∧
    (∀ C : PayloadCodec, Encode C tokenFarFuture = Encode C tokenAtLimit) ∧
    (∀ (C : PayloadCodec) (bs : Bytes),
      ¬ (Decode C SAuthToken.zero bs =
            .ok { UserId := "u1", Method := "password", ProjectId := "p1", DomainId := "",
                  ExpiresAt := timeUnix tokenFarFuture.ExpiresAt.Unix 0, AuditIds := ["a1"] } ∧
         Decode C SAuthToken.zero bs =
            .ok { UserId := "u1", Method := "password", ProjectId := "p1", DomainId := "",
                  ExpiresAt := timeUnix tokenAtLimit.ExpiresAt.Unix 0, AuditIds := ["a1"] })) := by
  refine ⟨by decide, rfl, rfl, rfl, by decide, fun C => rfl, ?_⟩
  rintro C bs ⟨h1, h2⟩
  rw [h1] at h2
  injection h2 with h3
  injection h3 with _ _ _ _ h4 _
  revert h4
  decide

/-- C3 (amended): let the payload codec meet the codec contract of the
specification and let the three version constants be pairwise different.  For
every entity satisfying scope exclusivity whose method label is recognised by
the method dictionary and whose expiry is within 2^53 seconds of the Unix epoch,
Decode applied to a fresh entity and the bytes returned by Encode succeeds and
reproduces UserId, Method, ProjectId, DomainId and AuditIds exactly, and
ExpiresAt truncated to whole seconds. -/
theorem Decode_Encode_roundtrip (C : PayloadCodec) (hC : C.Lawful) (hV : C.MarkersDistinct)
    (t : SAuthToken) (bs : Bytes)
    (hI1 : ¬ (t.ProjectId ≠ "" ∧ t.DomainId ≠ ""))
    (hM : t.Method ∈ C.authMethods)
    (hlo : -(2 ^ 53) ≤ t.ExpiresAt.Unix) (hhi : t.ExpiresAt.Unix ≤ 2 ^ 53)
    (hEnc : Encode C t = .ok bs) :
    Decode C SAuthToken.zero bs =
      .ok { UserId := t.UserId, Method := t.Method, ProjectId := t.ProjectId,
            DomainId := t.DomainId, ExpiresAt := timeUnix t.ExpiresAt.Unix 0,
            AuditIds := t.AuditIds } := by
  by_cases hp : t.ProjectId = ""
  · by_cases hd : t.DomainId = ""
    · have hPay := getPayload_of_unscoped C t hp hd
      have hE : C.encodeUnscoped (getUnscopedPayload C t) = .ok bs := by
        unfold Encode at hEnc
        rw [hPay] at hEnc
        exact hEnc
      obtain ⟨p, hU, hDec⟩ := hC.unscoped_inverse t bs hM hlo hhi hE
      have hNP : ∃ e, C.unmarshalProject bs = .error e := by
        cases hX : C.unmarshalProject bs with
        | error e => exact ⟨e, rfl⟩
        | ok q => exact absurd (hC.project_checks_unscoped _ bs q hE hX).symm hV.2.1
      have hND : ∃ e, C.unmarshalDomain bs = .error e := by
        cases hX : C.unmarshalDomain bs with
        | error e => exact ⟨e, rfl⟩
        | ok q => exact absurd (hC.domain_checks_unscoped _ bs q hE hX).symm hV.2.2
      obtain ⟨e1, h1⟩ := hNP
      obtain ⟨e2, h2⟩ := hND
      simp only [Decode, h1, h2, hU, hDec, hp, hd]
    · have hPay := getPayload_of_domain C t hp hd
      have hE : C.encodeDomain (getDomainScopedPayload C t) = .ok bs := by
        unfold Encode at hEnc
        rw [hPay] at hEnc
        exact hEnc
      obtain ⟨p, hU, hDec⟩ := hC.domain_inverse t bs hM hlo hhi hE
      have hNP : ∃ e, C.unmarshalProject bs = .error e := by
        cases hX : C.unmarshalProject bs with
        | error e => exact ⟨e, rfl⟩
        | ok q => exact absurd (hC.project_checks_domain _ bs q hE hX).symm hV.1
      obtain ⟨e1, h1⟩ := hNP
      simp only [Decode, h1, hU, hDec, hp]
  · have hd : t.DomainId = "" := by
      by_contra hne
      exact hI1 ⟨hp, hne⟩
    have hPay := getPayload_of_project C t hp
    have hE : C.encodeProject (getProjectScopedPayload C t) = .ok bs := by
      unfold Encode at hEnc
      rw [hPay] at hEnc
      exact hEnc
    obtain ⟨p, hU, hDec⟩ := hC.project_inverse t bs hM hlo hhi hE
    simp only [Decode, hU, hDec, hd]

/-- Witness of amended C3 on the reference codec and the entity scoped to project
p1, whose expiry has 500 ns beyond the whole second. -/
theorem Decode_Encode_roundtrip_witness :
    ¬ (tokenProject1.ProjectId ≠ "" ∧ tokenProject1.DomainId ≠ "") ∧
    Encode refCodec tokenProject1 =
      .ok [2, 2, 117, 49, 2, 112, 49, 1, 0, 1700003600, 1, 2, 97, 49] ∧
    Decode refCodec SAuthToken.zero [2, 2, 117, 49, 2, 112, 49, 1, 0, 1700003600, 1, 2, 97, 49] =
      .ok { UserId := "u1", Method := "password", ProjectId := "p1", DomainId := "",
            ExpiresAt := { sec := 1700003600, nsec := 0 }, AuditIds := ["a1"] } :=
  ⟨by decide, rfl,
    Decode_Encode_roundtrip refCodec refCodec_lawful ⟨by decide, by decide, by decide⟩
      tokenProject1 _ (by decide)
      (by decide) (by decide) (by decide) rfl⟩

end Tokens
